import Mathlib

/-!
# Verification of the wide-CSV transcoder (Construction_app)

Shallow embedding of `src/utils_csv.py` and `src/db.py` (importer, exporter,
labor-code codec, row/cell store operations), together with proofs settling
the frozen claims about the repository's specification.

Conventions of the embedding:
* Python strings are Lean `String`s; the relevant Python string primitives
  (`strip`, `split`, `lower`, `int(...)`, `float(...)`) are modelled
  explicitly below, over `List Char`.
* A pandas cell value (as produced by `read_csv` / stored in a `DataFrame`)
  is `Option CsvVal`: `none` models Python `None`, `CsvVal.num PyFloat.nan`
  models a missing field (pandas `NaN`), `CsvVal.str` a text value and
  `CsvVal.num` a numeric value.  Python floats are modelled by `PyFloat`
  (exact rationals plus `inf`/`nan`); float literals are taken at their
  exact decimal value, which is adequate for every claim (none depends on
  binary rounding).
* The database tables `rows` and `day_cells` are modelled as lists of
  records; SQL `ORDER BY` is a stable sort, `INSERT .. ON CONFLICT DO
  UPDATE` is replace-or-append keyed on `(row_id, day)`.
-/

namespace CApp

/-! ## Python string primitives -/

/-- The characters Python's `str.strip()` (and the regex class `\s`)
treat as whitespace (ASCII range). -/
def isPySpace (c : Char) : Bool :=
  c == ' ' || c == '\t' || c == '\n' || c == '\r' || c == '\x0b' || c == '\x0c'

/-- `str.strip()` on a character list: drop whitespace at both ends. -/
def pyStripChars (cs : List Char) : List Char :=
  ((cs.dropWhile isPySpace).reverse.dropWhile isPySpace).reverse

/-- `str.strip()`. -/
def pyStrip (s : String) : String :=
  ⟨pyStripChars s.data⟩

/-- Numeric value of a decimal digit character. -/
def charVal (c : Char) : Nat := c.toNat - 48

/-- Fold step accumulating one decimal digit. -/
def accDigit (a : Nat) (c : Char) : Nat := 10 * a + charVal c

/-- Validity of the tail of a digit run in Python's `int`/`float`
grammar: digits with single underscores strictly between digits
(the head digit has already been consumed). -/
def runOkTail : List Char → Bool
  | [] => true
  | c :: rest =>
    if c = '_' then
      match rest with
      | [] => false
      | d :: rest2 => d.isDigit && runOkTail rest2
    else
      c.isDigit && runOkTail rest

/-- A valid digit run: nonempty, underscores only between digits. -/
def validRun : List Char → Bool
  | [] => false
  | c :: rest => c.isDigit && runOkTail rest

/-- Value of a digit run (underscores discarded). -/
def runVal (cs : List Char) : Nat :=
  (cs.filter (fun c => c != '_')).foldl accDigit 0

/-- Consume an optional leading sign; returns (isNegative, rest). -/
def pySign : List Char → Bool × List Char
  | [] => (false, [])
  | c :: rest =>
    if c = '+' then (false, rest)
    else if c = '-' then (true, rest)
    else (false, c :: rest)

/-- Model of Python `int(s)` for string arguments: optional surrounding
whitespace, optional sign, then a decimal digit run (underscores allowed
between digits).  `none` models `ValueError`. -/
def pyParseInt (s : String) : Option Int :=
  let cs := pyStripChars s.data
  let sg := pySign cs
  if validRun sg.2 then
    some (if sg.1 then -(runVal sg.2 : Int) else (runVal sg.2 : Int))
  else
    none

/-! ## Python floats -/

/-- Model of a Python `float` value: finite values are taken at an exact
rational value; `inf` carries its sign; `nan` is a single value
(compared representationally, which no claim depends on). -/
inductive PyFloat
  | fin (q : ℚ)
  | inf (neg : Bool)
  | nan
deriving DecidableEq, Repr

/-- Model of Python `float(s)`: optional whitespace and sign, the keywords
`inf`/`infinity`/`nan` (case-insensitive), or a decimal literal
`D [. D] [e [sign] D]` where each digit run `D` may be empty on one side
of the point and may contain underscores between digits.
`none` models `ValueError`. -/
def pyParseFloat (s : String) : Option PyFloat :=
  let cs := pyStripChars s.data
  let sg := pySign cs
  let body := sg.2
  let low := body.map Char.toLower
  if low = "inf".data || low = "infinity".data then some (.inf sg.1)
  else if low = "nan".data then some .nan
  else
    let isE : Char → Bool := fun c => c = 'e' || c = 'E'
    let mant := body.takeWhile (fun c => !(isE c))
    let erest := body.dropWhile (fun c => !(isE c))
    let intPart := mant.takeWhile (fun c => c != '.')
    let dotPart := mant.dropWhile (fun c => c != '.')
    let fracPart := dotPart.drop 1
    let mantOk :=
      (intPart = [] || validRun intPart) &&
      (fracPart = [] || (validRun fracPart && fracPart.all (fun c => c != '.'))) &&
      !(intPart = [] && fracPart = []) &&
      (dotPart = [] || dotPart.take 1 = ['.'])
    let expVal : Option Int :=
      match erest with
      | [] => some 0
      | _ :: etail =>
        let esg := pySign etail
        if validRun esg.2 then
          some (if esg.1 then -(runVal esg.2 : Int) else (runVal esg.2 : Int))
        else none
    match expVal with
    | none => none
    | some e =>
      if mantOk then
        let fracDigits := (fracPart.filter (fun c => c != '_')).length
        let mag : ℚ :=
          ((runVal intPart : ℚ) + (runVal fracPart : ℚ) / (10 : ℚ) ^ fracDigits)
            * (10 : ℚ) ^ e
        some (.fin (if sg.1 then -mag else mag))
      else none

/-! ## Decimal rendering (Python `str` of ints and floats) -/

/-- Decimal digit characters of `n`, with explicit fuel (the fuel pattern
keeps the definition structurally recursive so that proofs can evaluate
it; `natDecimal` supplies sufficient fuel). -/
def natDecimalAux : Nat → Nat → List Char
  | 0, _ => []
  | fuel + 1, n =>
    if n < 10 then [Nat.digitChar n]
    else natDecimalAux fuel (n / 10) ++ [Nat.digitChar (n % 10)]

/-- Decimal digit characters of `n` (model of Python `str(n)` for a
non-negative int). -/
def natDecimal (n : Nat) : List Char :=
  natDecimalAux (n + 1) n

/-- Model of Python `str(d)` for an int. -/
def intStr (d : Int) : String :=
  if d < 0 then ⟨'-' :: natDecimal (-d).toNat⟩ else ⟨natDecimal d.toNat⟩

/-- Model of Python `str(x)` for a float, in the plain-decimal regime
(Python switches to exponent notation only for very large/small
magnitudes, which no claim exercises).  Only non-emptiness of the result
is ever relied on in proofs. -/
def pyFloatRepr : PyFloat → String
  | .nan => "nan"
  | .inf neg => if neg then "-inf" else "inf"
  | .fin q =>
    let render : ℚ → String := fun q0 =>
      match (List.range 400).find? (fun k => (q0 * (10 : ℚ) ^ k).den = 1) with
      | some k =>
        let scaled := (q0 * (10 : ℚ) ^ k).num.toNat
        let ds := natDecimal scaled
        if k = 0 then ⟨ds ++ ['.', '0']⟩
        else
          let ip := ds.take (ds.length - k)
          let fp := ds.drop (ds.length - k)
          let ip2 := if ip = [] then ['0'] else ip
          let fp2 := (List.replicate (k - ds.length) '0') ++ fp
          ⟨ip2 ++ '.' :: fp2⟩
      | none => "?"
    if q < 0 then "-" ++ render (-q) else render q

/-! ## Labor code codec (`src/utils_csv.py`, `src/db.py`) -/

/-- `build_labor_code(people, group_id)`: clamps both arguments at 0 and
renders `f"{people}.{group_id:02d}"`. -/
def build_labor_code (people group_id : Int) : String :=
  let p := (max 0 people).toNat
  let g := (max 0 group_id).toNat
  let gpad := if g < 10 then '0' :: natDecimal g else natDecimal g
  ⟨natDecimal p ++ '.' :: gpad⟩

/-- `parse_people_from_labor_code(code)` (`src/utils_csv.py`): 0 on a
falsy code, otherwise `int(str(code).split(".")[0])` with exceptions
swallowed to 0.  `split(".")[0]` is the prefix before the first `'.'`. -/
def parse_people_from_labor_code (code : Option String) : Int :=
  match code with
  | none => 0
  | some s =>
    if s = "" then 0
    else
      match pyParseInt ⟨s.data.takeWhile (fun c => c != '.')⟩ with
      | some n => n
      | none => 0

/-- `people_from_labor_code(code)` (`src/db.py`): an identical duplicate
of `parse_people_from_labor_code`. -/
def people_from_labor_code (code : Option String) : Int :=
  match code with
  | none => 0
  | some s =>
    if s = "" then 0
    else
      match pyParseInt ⟨s.data.takeWhile (fun c => c != '.')⟩ with
      | some n => n
      | none => 0

/-! ## Column triplet detector (`src/utils_csv.py`) -/

/-- Result tuple of `detect_day_triplets`: the day column name, the names
of the two following columns (or `none` when out of range), the day
number, and the column index. -/
structure DayTriplet where
  col : String
  timeCol : Option String
  laborCol : Option String
  day : Nat
  idx : Nat
deriving DecidableEq, Repr

/-- Match of `DAY_COL_PATTERN` = `^Day\s*(\d+)$` (case-insensitive)
against `str(c).strip()`: returns the value of the digit group. -/
def dayPatMatch (c : String) : Option Nat :=
  match pyStripChars c.data with
  | c1 :: c2 :: c3 :: rest =>
    if c1.toLower = 'd' && c2.toLower = 'a' && c3.toLower = 'y' then
      let ds := rest.dropWhile isPySpace
      if ds ≠ [] && ds.all Char.isDigit then some (ds.foldl accDigit 0) else none
    else none
  | _ => none

/-- Index-carrying scan of the column list (the `for i, c in
enumerate(columns)` loop of `detect_day_triplets`). -/
def detectGo (all : List String) : Nat → List String → List DayTriplet
  | _, [] => []
  | i, c :: rest =>
    match dayPatMatch c with
    | some n =>
      ⟨c, all.get? (i + 1), all.get? (i + 2), n, i⟩ :: detectGo all (i + 1) rest
    | none => detectGo all (i + 1) rest

/-- `detect_day_triplets(columns)`. -/
def detect_day_triplets (columns : List String) : List DayTriplet :=
  detectGo columns 0 columns

/-- `max_day_from_columns(columns)`: the largest matched day number, or 1
when no column matches. -/
def max_day_from_columns (columns : List String) : Nat :=
  let m := columns.foldl
    (fun m c => match dayPatMatch c with | some n => max m n | none => m) 0
  if m = 0 then 1 else m

/-! ## Pandas cell values -/

/-- An in-memory pandas value: a text or a float.  A missing field
(`NaN`) is `num PyFloat.nan`; Python `None` is modelled by `Option`
around `CsvVal` at use sites. -/
inductive CsvVal
  | str (s : String)
  | num (x : PyFloat)
deriving DecidableEq, Repr

/-- Python `str(v)` on a cell value. -/
def pyStrVal : CsvVal → String
  | .str s => s
  | .num x => pyFloatRepr x

/-- `pd.notna(v)`: false on Python `None` and on float `NaN`. -/
def pdNotNA : Option CsvVal → Bool
  | none => false
  | some (.num .nan) => false
  | some _ => true

/-- A flat table as produced by `pd.read_csv` (or held in a `DataFrame`
before `to_csv`): a header row of column names and per-record cell
lists, addressed positionally.  `read_csv` mangles duplicate column
names (`X`, `X.1`, …), so name-based access in the source is positional
access here. -/
structure CsvTable where
  header : List String
  cells : List (List (Option CsvVal))
deriving DecidableEq, Repr

/-- Cell of a record at a column index (`r.get(c, None)`): Python `None`
both when the column is absent and when the stored value is `None`. -/
def cellAt (r : List (Option CsvVal)) (i : Nat) : Option CsvVal :=
  (r.get? i).getD none

/-! ## Normalized model produced by the importer -/

/-- One `day_cells` record (sans ids): the sparse fact for one day. -/
structure NCell where
  day : Int
  task : Option String
  hours : Option PyFloat
  labor_code : Option String
deriving DecidableEq, Repr

/-- One `rows` record of a sheet together with its day cells (`sect`
stands for the source's `section` column, a Lean keyword). -/
structure NRow where
  sect : String
  subsection : String
  row_order : Nat
  cells : List NCell
deriving DecidableEq, Repr

/-- One observable tuple of the round-trip property. -/
structure CellTuple where
  sect : String
  subsection : String
  day : Int
  task : Option String
  hours : Option PyFloat
  labor_code : Option String
deriving DecidableEq, Repr

/-- The `(section, subsection, day, task, hours, labor_code)` tuples of a
normalized sheet (the round-trip observable of the spec). -/
def sheetTuples (rs : List NRow) : List CellTuple :=
  rs.foldr
    (fun r acc =>
      r.cells.map (fun c => ⟨r.sect, r.subsection, c.day, c.task, c.hours, c.labor_code⟩) ++ acc)
    []

/-! ## Importer (`import_wide_csv`, `src/db.py`) -/

/-- Failure modes of `import_wide_csv`.  The first two are the explicit
`ValueError`s of the source; `DuplicateCellKey` models the database
unique-violation the final bulk upsert raises when two detected triplets
carry the same day number (duplicate `Day N` headers), so that the
embedding does not silently succeed where the source would raise. -/
inductive ImportErr
  | MalformedInput
  | NoDayColumnsFound
  | DuplicateCellKey
deriving DecidableEq, Repr

/-- An inline triplet of `import_wide_csv`: positional indices of the day
column and of the two following columns, plus the parsed day number
(`int(str(c).split()[-1])`, which may be negative). -/
structure ImpTriplet where
  dayIdx : Nat
  timeIdx : Option Nat
  laborIdx : Option Nat
  day : Int
deriving DecidableEq, Repr

/-- The last whitespace-separated token of a string
(`str(c).split()[-1]`); `none` models the `IndexError` on an
all-whitespace string, which the source turns into `continue`. -/
def lastWsToken (cs : List Char) : Option (List Char) :=
  let r := (cs.reverse.dropWhile isPySpace).takeWhile (fun c => !isPySpace c)
  if r = [] then none else some r.reverse

/-- Column scan of `import_wide_csv`: a column whose stripped, lowered
name starts with `"day "` and whose last token parses as an int yields a
triplet with the two following column positions. -/
def importTripletsGo : Nat → List String → List ImpTriplet
  | _, [] => []
  | i, c :: rest =>
    if "day ".data.isPrefixOf ((pyStripChars c.data).map Char.toLower) then
      match (lastWsToken c.data).bind (fun tk => pyParseInt ⟨tk⟩) with
      | some dnum =>
        ⟨i, if 0 < rest.length then some (i + 1) else none,
            if 1 < rest.length then some (i + 2) else none,
            dnum⟩ :: importTripletsGo (i + 1) rest
      | none => importTripletsGo (i + 1) rest
    else importTripletsGo (i + 1) rest

/-- The inline day-triplet detection of `import_wide_csv` over the header
(`cols[i+1] if i + 1 < len(cols) else None`, likewise `i+2`). -/
def importTriplets (cols : List String) : List ImpTriplet :=
  importTripletsGo 0 cols

/-- `_as_text(v)`: `None` on `None`/`NaN`, else the stripped string, or
`None` when it is empty. -/
def as_text (v : Option CsvVal) : Option String :=
  match v with
  | none => none
  | some (.num .nan) => none
  | some w =>
    let s := pyStrip (pyStrVal w)
    if s = "" then none else some s

/-- The cleaned string `_coerce_float` feeds to `float(...)`:
`str(v).strip().replace(",", "")`. -/
def cleanNum (w : CsvVal) : String :=
  ⟨(pyStripChars (pyStrVal w).data).filter (fun c => c != ',')⟩

/-- `_coerce_float(v)`: `None` on Python `None` or an empty cleaned
string, otherwise `float(...)` with a parse failure swallowed to `None`.
Note a pandas `NaN` cell is a float whose `str` is `"nan"`, which
`float` parses back, so `NaN` coerces to `NaN`, not to `None`. -/
def coerce_float (v : Option CsvVal) : Option PyFloat :=
  match v with
  | none => none
  | some w =>
    let s := cleanNum w
    if s = "" then none else pyParseFloat s

/-- The label of a record: `str(r[first_col]).strip()` when the first
column is not NA, else `None`. -/
def labelOf (r : List (Option CsvVal)) : Option String :=
  match cellAt r 0 with
  | none => none
  | some (.num .nan) => none
  | some w => some (pyStrip (pyStrVal w))

/-- Per-cell check of `_row_has_any_triplet_values`: non-NA and
nonempty after `str(...).strip()`. -/
def cellNonEmpty : Option CsvVal → Bool
  | none => false
  | some (.num .nan) => false
  | some w => pyStrip (pyStrVal w) != ""

/-- `_row_has_any_triplet_values(row)`: some triplet column of the record
holds a non-NA, nonempty value. -/
def rowHasAnyTripletValues (ts : List ImpTriplet) (r : List (Option CsvVal)) : Bool :=
  ts.any (fun t =>
    cellNonEmpty (cellAt r t.dayIdx) ||
    (match t.timeIdx with
     | some i => cellNonEmpty (cellAt r i)
     | none => false) ||
    (match t.laborIdx with
     | some i => cellNonEmpty (cellAt r i)
     | none => false))

/-- The per-triplet cell extraction of the importer's row loop: raw
task/hours/labor reads, coercions, the promotion of alphabetic hours
text into the task slot, and the sparse skip when all three are null. -/
def processTriplet (r : List (Option CsvVal)) (t : ImpTriplet) : Option NCell :=
  let raw_task := cellAt r t.dayIdx
  let raw_hours := match t.timeIdx with | some i => cellAt r i | none => none
  let raw_labor := match t.laborIdx with | some i => cellAt r i | none => none
  let task0 := as_text raw_task
  let hours := coerce_float raw_hours
  let labor := as_text raw_labor
  let task :=
    if task0 = none ∧ hours = none then
      match as_text raw_hours with
      | some ht => if ht.data.any Char.isAlpha then some ht else none
      | none => none
    else task0
  if task = none ∧ hours = none ∧ labor = none then none
  else some ⟨t.day, task, hours, labor⟩

/-- `_normalize_section(label)`: the fixed allow-list, plus
`"first floor"` (case-insensitive) normalized to `"1st Floor"`. -/
def normalize_section (label : String) : Option String :=
  let lab := pyStrip label
  if lab = "Outside" || lab = "Ground Floor" || lab = "1st Floor" || lab = "Roof" then
    some lab
  else if lab.data.map Char.toLower = "first floor".data then some "1st Floor"
  else none

/-- Accumulator of the importer's row loop. -/
structure ImportSt where
  current_section : Option String
  row_order : Nat
  acc : List NRow
deriving Repr

/-- One iteration of the importer's row loop: header classification
(`is_header = not _row_has_any_triplet_values(r)`), section update on a
header, the orphan skip, or creation of one row with its cells. -/
def stepRow (ts : List ImpTriplet) (st : ImportSt) (r : List (Option CsvVal)) : ImportSt :=
  let label := labelOf r
  if rowHasAnyTripletValues ts r = false then
    match normalize_section (label.getD "") with
    | some canon => { st with current_section := some canon }
    | none => st
  else
    match st.current_section with
    | none => st
    | some sec =>
      let ro := st.row_order + 1
      { current_section := st.current_section
        row_order := ro
        acc := st.acc ++ [⟨sec, label.getD "", ro, ts.filterMap (processTriplet r)⟩] }

/-- `import_wide_csv` on an in-memory table, producing the normalized
rows (with cells) the call would insert for a fresh sheet name.  The
final check mirrors the bulk upsert's `(row_id, day)` unique key: within
one created row, duplicate day numbers raise. -/
def import_wide_csv (t : CsvTable) : Except ImportErr (List NRow) :=
  if t.header.length < 2 then .error .MalformedInput
  else
    let ts := importTriplets t.header
    if ts = [] then .error .NoDayColumnsFound
    else
      let st := t.cells.foldl (stepRow ts) ⟨none, 0, []⟩
      if st.acc.all (fun r => decide (r.cells.map (fun c => c.day)).Nodup) then
        .ok st.acc
      else .error .DuplicateCellKey

/-! ## Exporter (`export_wide_csv`, `src/db.py`) -/

/-- Lexicographic text comparison by code point (model of SQL `text`
ascending order, which agrees with code-point order on the ASCII data of
this application). -/
def strLtChars : List Char → List Char → Bool
  | [], [] => false
  | [], _ :: _ => true
  | _ :: _, [] => false
  | x :: xs, y :: ys =>
    if x.toNat < y.toNat then true
    else if y.toNat < x.toNat then false
    else strLtChars xs ys

/-- Lexicographic text comparison on strings. -/
def strLt (a b : String) : Bool := strLtChars a.data b.data

/-- The SQL `ORDER BY section ASC, subsection ASC, row_order ASC`
comparison on rows. -/
def rowLe (a b : NRow) : Bool :=
  strLt a.sect b.sect ||
  (a.sect = b.sect &&
    (strLt a.subsection b.subsection ||
     (a.subsection = b.subsection && a.row_order ≤ b.row_order)))

/-- Stable insertion of one element into a list sorted by `le`. -/
def insertBy (le : α → α → Bool) (x : α) : List α → List α
  | [] => [x]
  | y :: ys => if le x y then x :: y :: ys else y :: insertBy le x ys

/-- Stable sort by `le` (model of SQL `ORDER BY`). -/
def sortBy (le : α → α → Bool) : List α → List α
  | [] => []
  | x :: xs => insertBy le x (sortBy le xs)

/-- `max(days)` over every day cell of the sheet, 0 when there are no
cells (`max_day = max(days) if days else 0`; a negative maximum yields
the same empty `range(1, max_day + 1)` as 0 does). -/
def maxDay (rs : List NRow) : Int :=
  ((rs.foldr (fun r acc => r.cells.map (fun c => c.day) ++ acc) []).max?).getD 0

/-- `range(1, maxDay + 1)` as a list of days. -/
def dayRange (md : Int) : List Int :=
  (List.range md.toNat).map (fun i => (i : Int) + 1)

/-- Insert-or-overwrite on a Python dict modelled as an association list
that keeps first-insertion key order (the semantics that makes the
repeated `row_obj[f"Time (hours)"]` assignments of the source collapse
onto a single key). -/
def dictUpsert (d : List (String × Option CsvVal)) (k : String) (v : Option CsvVal) :
    List (String × Option CsvVal) :=
  if d.any (fun p => p.1 = k) then
    d.map (fun p => if p.1 = k then (k, v) else p)
  else d ++ [(k, v)]

/-- Lookup in the dict model (`DataFrame` column extraction). -/
def dictGet (d : List (String × Option CsvVal)) (k : String) : Option CsvVal :=
  match d.find? (fun p => p.1 = k) with
  | some p => p.2
  | none => none

/-- The `row_obj` dict built for one exported row: the label, then for
each day the three assignments `Day {d}`, `Time (hours)`,
`Labor (workers)` — the latter two keys carry no day number in the
source, so each day overwrites them. -/
def exportRowDict (days : List Int) (r : NRow) : List (String × Option CsvVal) :=
  days.foldl
    (fun dict d =>
      let dc := r.cells.find? (fun c => c.day = d)
      let dict := dictUpsert dict ("Day " ++ intStr d)
        (match dc with | some c => c.task.map .str | none => none)
      let dict := dictUpsert dict "Time (hours)"
        (match dc with | some c => c.hours.map .num | none => none)
      dictUpsert dict "Labor (workers)"
        (match dc with | some c => c.labor_code.map .str | none => none))
    [("Section/Subsection", some (.str r.subsection))]

/-- The exported column list: the label column then, per day, the
triplet `Day d`, `Time (hours)`, `Labor (workers)` (the latter two
repeated identically for every day). -/
def exportCols (days : List Int) : List String :=
  "Section/Subsection" ::
    (days.map (fun d => ["Day " ++ intStr d, "Time (hours)", "Labor (workers)"])).flatten

/-- `export_wide_csv` for one sheet: rows sorted by
`(section, subsection, row_order)`, `pd.DataFrame(data)[cols]`
re-selecting the (collapsed) dict keys per column name, and the
header-only `Empty` table for a sheet with no rows. -/
def export_wide_csv (rs : List NRow) : CsvTable :=
  if rs = [] then ⟨["Empty"], []⟩
  else
    let sorted := sortBy rowLe rs
    let days := dayRange (maxDay rs)
    let cols := exportCols days
    ⟨cols, sorted.map (fun r =>
      let dict := exportRowDict days r
      cols.map (fun c => dictGet dict c))⟩

/-! ## CSV serialization (`to_csv` then `read_csv`) -/

/-- The text `to_csv` writes for one cell: empty for `None`/`NaN`. -/
def cellText : Option CsvVal → String
  | none => ""
  | some (.num .nan) => ""
  | some (.str s) => s
  | some (.num x) => pyFloatRepr x

/-- `read_csv`'s deduplication of column names: a repeated name gets a
`.k` suffix counting earlier occurrences. -/
def mangleGo (seen : List String) : List String → List String
  | [] => []
  | c :: rest =>
    let k := seen.count c
    (if k = 0 then c else c ++ "." ++ ⟨natDecimal k⟩) :: mangleGo (seen ++ [c]) rest

/-- Deduplicated header names. -/
def mangle (cols : List String) : List String := mangleGo [] cols

/-- One re-read cell: empty text is `NaN`; in a numeric column the text
is parsed as a float, otherwise kept as a string. -/
def rereadCell (numericCol : Bool) (s : String) : Option CsvVal :=
  if s = "" then some (.num .nan)
  else if numericCol then (pyParseFloat s).map .num
  else some (.str s)

/-- Model of `df.to_csv(path)` followed by `pd.read_csv(path)`: headers
are mangled, and each column is re-typed as numeric when every nonempty
field of it parses as a float (pandas' per-column dtype inference). -/
def csvWriteRead (t : CsvTable) : CsvTable :=
  let width := t.header.length
  let colText : Nat → List String := fun j => t.cells.map (fun r => cellText (cellAt r j))
  let numeric : List Bool :=
    (List.range width).map (fun j =>
      (colText j).all (fun s => s = "" || (pyParseFloat s).isSome))
  ⟨mangle t.header,
   t.cells.map (fun r =>
     (List.range width).map (fun j =>
       rereadCell (numeric.getD j false) (cellText (cellAt r j))))⟩

/-! ## Store operations (`rows` and `day_cells` tables, `src/db.py`) -/

/-- One record of the `rows` table (`sect` stands for the `section`
column, a Lean keyword). -/
structure DbRow where
  id : Nat
  sheet_id : Nat
  sect : String
  subsection : String
  row_order : Int
deriving DecidableEq, Repr

/-- One record of the `day_cells` table (sans surrogate id); also the
shape of a bulk-upsert record. -/
structure DbCell where
  row_id : Nat
  day : Int
  task : Option String
  hours : Option PyFloat
  labor_code : Option String
deriving DecidableEq, Repr

/-- `SELECT row_order FROM rows WHERE id = i` (ids are unique, so the
first match is the row). -/
def findRow (rows : List DbRow) (i : Nat) : Option DbRow :=
  rows.find? (fun r => r.id = i)

/-- `swap_row_order(conn, a, b)`: fetch both row_orders, return
unchanged if either row is missing, otherwise run the two UPDATEs (each
keyed on id only — there is no same-sheet check in the source). -/
def swap_row_order (rows : List DbRow) (a b : Nat) : List DbRow :=
  match findRow rows a, findRow rows b with
  | some ra, some rb =>
    (rows.map (fun r => if r.id = a then { r with row_order := rb.row_order } else r)).map
      (fun r => if r.id = b then { r with row_order := ra.row_order } else r)
  | _, _ => rows

/-- Lookup of the cell at a `(row_id, day)` key. -/
def findCell (cells : List DbCell) (rid : Nat) (d : Int) : Option DbCell :=
  cells.find? (fun c => c.row_id = rid && c.day = d)

/-- `upsert_cell`: `INSERT .. ON CONFLICT (row_id, day) DO UPDATE SET
task = excluded.task, hours = excluded.hours, labor_code =
excluded.labor_code` — replace all three fields on conflict, append
otherwise. -/
def upsert_cell (cells : List DbCell) (row_id : Nat) (day : Int)
    (task : Option String) (hours : Option PyFloat) (labor_code : Option String) :
    List DbCell :=
  if cells.any (fun c => c.row_id = row_id && c.day = day) then
    cells.map (fun c =>
      if c.row_id = row_id && c.day = day then
        { c with task := task, hours := hours, labor_code := labor_code }
      else c)
  else cells ++ [⟨row_id, day, task, hours, labor_code⟩]

/-- `bulk_upsert_cells`: one multi-row `INSERT .. ON CONFLICT DO UPDATE`.
When two records of the batch share a `(row_id, day)` key Postgres
raises ("cannot affect row a second time"), modelled as `none`; on
distinct keys the statement acts as the sequence of single upserts. -/
def bulk_upsert_cells (cells : List DbCell) (records : List DbCell) :
    Option (List DbCell) :=
  if (records.map (fun r => (r.row_id, r.day))).Nodup then
    some (records.foldl
      (fun cs r => upsert_cell cs r.row_id r.day r.task r.hours r.labor_code) cells)
  else none

/-! ## Decimal round-trip lemmas -/

theorem natDecimalAux_fuel : ∀ (n f1 f2 : Nat), n < f1 → n < f2 →
    natDecimalAux f1 n = natDecimalAux f2 n := by
  intro n
  induction n using Nat.strongRecOn with
  | _ n ih =>
    intro f1 f2 h1 h2
    cases f1 with
    | zero => omega
    | succ f1 =>
      cases f2 with
      | zero => omega
      | succ f2 =>
        simp only [natDecimalAux]
        by_cases hlt : n < 10
        · simp [hlt]
        · have hd : n / 10 < n := Nat.div_lt_self (by omega) (by omega)
          simp only [if_neg hlt]
          rw [ih (n / 10) hd f1 f2 (by omega) (by omega)]

theorem natDecimal_unfold (n : Nat) :
    natDecimal n =
      if n < 10 then [Nat.digitChar n]
      else natDecimal (n / 10) ++ [Nat.digitChar (n % 10)] := by
  by_cases h : n < 10
  · rw [if_pos h]
    unfold natDecimal
    simp [natDecimalAux, h]
  · rw [if_neg h]
    have hd : n / 10 < n := Nat.div_lt_self (by omega) (by omega)
    have hstep : natDecimalAux (n + 1) n =
        natDecimalAux n (n / 10) ++ [Nat.digitChar (n % 10)] := by
      simp [natDecimalAux, h]
    show natDecimalAux (n + 1) n = natDecimal (n / 10) ++ [Nat.digitChar (n % 10)]
    rw [hstep, natDecimalAux_fuel (n / 10) n (n / 10 + 1) (by omega) (by omega)]
    rfl

theorem digitChar_spec (d : Nat) (h : d < 10) :
    (Nat.digitChar d).isDigit = true ∧ charVal (Nat.digitChar d) = d ∧
    isPySpace (Nat.digitChar d) = false := by
  interval_cases d <;> exact ⟨rfl, rfl, rfl⟩

theorem natDecimal_props (n : Nat) :
    natDecimal n ≠ [] ∧ (∀ c ∈ natDecimal n, c.isDigit = true) ∧
    (natDecimal n).foldl accDigit 0 = n := by
  induction n using Nat.strongRecOn with
  | _ n ih =>
    by_cases h : n < 10
    · rw [natDecimal_unfold, if_pos h]
      obtain ⟨hd, hv, _⟩ := digitChar_spec n h
      refine ⟨by simp, ?_, ?_⟩
      · intro c hc
        simp only [List.mem_singleton] at hc
        rw [hc]; exact hd
      · simp [accDigit, hv]
    · rw [natDecimal_unfold, if_neg h]
      have hlt : n / 10 < n := Nat.div_lt_self (by omega) (by omega)
      obtain ⟨hne, hdig, hval⟩ := ih (n / 10) hlt
      obtain ⟨hd2, hv2, _⟩ := digitChar_spec (n % 10) (Nat.mod_lt _ (by omega))
      refine ⟨by simp, ?_, ?_⟩
      · intro c hc
        rcases List.mem_append.mp hc with h1 | h2
        · exact hdig c h1
        · simp only [List.mem_singleton] at h2
          rw [h2]; exact hd2
      · rw [List.foldl_append, hval]
        simp only [List.foldl_cons, List.foldl_nil, accDigit, hv2]
        omega

theorem isDigit_ne {c : Char} (x : Char) (hx : x.isDigit = false) (h : c.isDigit = true) :
    c ≠ x := by
  intro he
  rw [he, hx] at h
  cases h

theorem isPySpace_of_isDigit {c : Char} (h : c.isDigit = true) : isPySpace c = false := by
  have h1 := beq_eq_false_iff_ne.mpr (isDigit_ne ' ' (by decide) h)
  have h2 := beq_eq_false_iff_ne.mpr (isDigit_ne '\t' (by decide) h)
  have h3 := beq_eq_false_iff_ne.mpr (isDigit_ne '\n' (by decide) h)
  have h4 := beq_eq_false_iff_ne.mpr (isDigit_ne '\r' (by decide) h)
  have h5 := beq_eq_false_iff_ne.mpr (isDigit_ne '\x0b' (by decide) h)
  have h6 := beq_eq_false_iff_ne.mpr (isDigit_ne '\x0c' (by decide) h)
  simp [isPySpace, h1, h2, h3, h4, h5, h6]

theorem dropWhile_all_neg (p : Char → Bool) (cs : List Char)
    (h : ∀ c ∈ cs, p c = false) : cs.dropWhile p = cs := by
  cases cs with
  | nil => rfl
  | cons c rest =>
    exact List.dropWhile_cons_of_neg (by simp [h c (by simp)])

theorem pyStripChars_digits (cs : List Char) (h : ∀ c ∈ cs, c.isDigit = true) :
    pyStripChars cs = cs := by
  unfold pyStripChars
  rw [dropWhile_all_neg _ _ (fun c hc => isPySpace_of_isDigit (h c hc)),
      dropWhile_all_neg _ _ (fun c hc => isPySpace_of_isDigit (h c (List.mem_reverse.mp hc))),
      List.reverse_reverse]

theorem runOkTail_digits : ∀ cs : List Char, (∀ c ∈ cs, c.isDigit = true) →
    runOkTail cs = true := by
  intro cs
  induction cs with
  | nil => intro _; rfl
  | cons c rest ih =>
    intro h
    have hc := h c (by simp)
    have hcu : ¬ c = '_' := isDigit_ne '_' (by decide) hc
    unfold runOkTail
    rw [if_neg hcu, hc, ih (fun d hd => h d (by simp [hd]))]
    rfl

theorem validRun_digits (cs : List Char) (hne : cs ≠ [])
    (h : ∀ c ∈ cs, c.isDigit = true) : validRun cs = true := by
  cases cs with
  | nil => exact absurd rfl hne
  | cons c rest =>
    simp only [validRun]
    rw [h c (by simp), runOkTail_digits rest (fun d hd => h d (by simp [hd]))]
    rfl

theorem runVal_digits (cs : List Char) (h : ∀ c ∈ cs, c.isDigit = true) :
    runVal cs = cs.foldl accDigit 0 := by
  unfold runVal
  rw [List.filter_eq_self.mpr
    (fun a ha => bne_iff_ne.mpr (isDigit_ne '_' (by decide) (h a ha)))]

theorem pySign_digit (c : Char) (rest : List Char) (h : c.isDigit = true) :
    pySign (c :: rest) = (false, c :: rest) := by
  simp only [pySign,
    if_neg (isDigit_ne '+' (by decide) h), if_neg (isDigit_ne '-' (by decide) h)]

theorem pyParseInt_natDecimal (n : Nat) : pyParseInt ⟨natDecimal n⟩ = some (n : Int) := by
  obtain ⟨hne, hdig, hval⟩ := natDecimal_props n
  unfold pyParseInt
  show (let cs := pyStripChars (natDecimal n); _) = _
  rw [pyStripChars_digits _ hdig]
  cases hcs : natDecimal n with
  | nil => exact absurd hcs hne
  | cons c rest =>
    have hdig2 : ∀ d ∈ c :: rest, d.isDigit = true := by rw [← hcs]; exact hdig
    simp only [pySign_digit c rest (hdig2 c (by simp))]
    rw [if_pos (validRun_digits _ (by simp) hdig2)]
    rw [runVal_digits _ hdig2, ← hcs, hval]
    simp

theorem takeWhile_until_dot (a b : List Char) (h : ∀ c ∈ a, (c != '.') = true) :
    (a ++ '.' :: b).takeWhile (fun c => c != '.') = a := by
  induction a with
  | nil =>
    simp [List.takeWhile_cons]
  | cons c rest ih =>
    have hc := h c (by simp)
    simp only [List.cons_append, List.takeWhile_cons, hc, if_true]
    rw [ih (fun d hd => h d (by simp [hd]))]

/-! ## Claim C7: labor codec inverse -/

/-- C7: for every `people ∈ [0, 999]` and `group ∈ [0, 99]`,
`decode(encode(people, group)) == people`, where the encoder produces
`"<people>.<group zero-padded to 2 digits>"`.  (The proof does not in
fact need the upper bounds.) -/
theorem labor_codec_inverse (p g : Int) (hp0 : 0 ≤ p) (hp1 : p ≤ 999)
    (hg0 : 0 ≤ g) (hg1 : g ≤ 99) :
    parse_people_from_labor_code (some (build_labor_code p g)) = p := by
  obtain ⟨hne, hdig, hval⟩ := natDecimal_props p.toNat
  have hmax : (max 0 p).toNat = p.toNat := by rw [max_eq_right hp0]
  have hdata : (build_labor_code p g).data
      = natDecimal p.toNat ++ '.' ::
        (if (max 0 g).toNat < 10 then '0' :: natDecimal (max 0 g).toNat
         else natDecimal (max 0 g).toNat) := by
    simp only [build_labor_code, hmax]
  have hsne : build_labor_code p g ≠ "" := by
    intro he
    have h2 := congrArg String.data he
    rw [hdata] at h2
    simp at h2
  simp only [parse_people_from_labor_code]
  rw [if_neg hsne, hdata,
    takeWhile_until_dot _ _
      (fun c hc => bne_iff_ne.mpr (isDigit_ne '.' (by decide) (hdig c hc))),
    pyParseInt_natDecimal]
  exact Int.toNat_of_nonneg hp0

/-- Witness for C7 at `people = 7`, `group = 6` (`encode(7, 6) = "7.06"`). -/
theorem labor_codec_inverse_witness :
    parse_people_from_labor_code (some (build_labor_code 7 6)) = 7 :=
  labor_codec_inverse 7 6 (by decide) (by decide) (by decide) (by decide)

/-! ## Claim C8: decode totality -/

/-- C8 counterexample: the claim says decode returns a *non-negative*
integer for every input, but `decode("-5.02") = -5`. -/
theorem decode_negative_counterexample :
    people_from_labor_code (some "-5.02") = -5 ∧
    ¬ 0 ≤ people_from_labor_code (some "-5.02") := by
  constructor
  · rfl
  · intro h
    rw [show people_from_labor_code (some "-5.02") = -5 from rfl] at h
    omega

/-- C8 amended: decode is total (a Lean function; every Python
exception path is swallowed to 0 in the source) and returns the integer
before the first `'.'` — possibly negative — or 0 on a null code or an
unparseable prefix. -/
theorem decode_prefix_total :
    people_from_labor_code none = 0 ∧
    ∀ (a b : String), '.' ∉ a.data →
      people_from_labor_code (some (a ++ "." ++ b)) = (pyParseInt a).getD 0 := by
  refine ⟨rfl, ?_⟩
  intro a b hdot
  have hdata : (a ++ "." ++ b).data = a.data ++ '.' :: b.data := by
    simp [String.data_append]
  have hne : a ++ "." ++ b ≠ "" := by
    intro he
    have h2 := congrArg String.data he
    rw [hdata] at h2
    simp at h2
  simp only [people_from_labor_code]
  rw [if_neg hne, hdata,
    takeWhile_until_dot _ _ (fun c hc => bne_iff_ne.mpr (fun he => hdot (he ▸ hc)))]
  have heta : (⟨a.data⟩ : String) = a := rfl
  rw [heta]
  cases pyParseInt a <;> simp

/-- Witness for C8 amended: `decode("7" + "." + "06") = 7`. -/
theorem decode_prefix_total_witness :
    people_from_labor_code (some ("7" ++ "." ++ "06")) = 7 := by
  rw [decode_prefix_total.2 "7" "06" (by decide)]
  decide

/-! ## Claim C10: alphabetic hours text promoted to task -/

/-- C10: in the importer's cell extraction, when the `Day` (task) value
is blank and the time-column value fails numeric coercion but is
non-blank text containing a letter, the text becomes the cell's task
and hours stays null (the cell is created, not discarded). -/
theorem alphabetic_hours_promoted (r : List (Option CsvVal)) (t : ImpTriplet) (s : String)
    (htask : as_text (cellAt r t.dayIdx) = none)
    (hcoerce : coerce_float (match t.timeIdx with | some i => cellAt r i | none => none) = none)
    (htext : as_text (match t.timeIdx with | some i => cellAt r i | none => none) = some s)
    (halpha : s.data.any Char.isAlpha = true) :
    processTriplet r t = some ⟨t.day, some s, none,
      as_text (match t.laborIdx with | some i => cellAt r i | none => none)⟩ := by
  simp only [processTriplet, htask, hcoerce, htext]
  simp [halpha]

/-- Witness for C10: a record whose day-1 triplet has a blank task cell
and hours text `"pending"` yields a cell with task `"pending"`. -/
theorem alphabetic_hours_promoted_witness :
    processTriplet [none, none, some (.str "pending"), none] ⟨1, some 2, some 3, 1⟩
      = some ⟨1, some "pending", none, none⟩ := by
  rw [alphabetic_hours_promoted _ _ "pending" (by decide) (by decide) (by decide) (by decide)]
  decide

/-! ## Claim C6: import failure policy -/

/-- C6: `import_wide_csv` fails with `MalformedInput` exactly when the
table has fewer than 2 columns, with `NoDayColumnsFound` exactly when it
has at least 2 columns and the header scan finds no day column; and a
per-cell hours value whose cleaned text does not parse as a float is
coerced to `none` (never an error). -/
theorem import_failure_policy (t : CsvTable) :
    (import_wide_csv t = .error .MalformedInput ↔ t.header.length < 2) ∧
    (import_wide_csv t = .error .NoDayColumnsFound ↔
      2 ≤ t.header.length ∧ importTriplets t.header = []) ∧
    (∀ w : CsvVal, pyParseFloat (cleanNum w) = none → coerce_float (some w) = none) := by
  refine ⟨?_, ?_, ?_⟩
  · unfold import_wide_csv
    by_cases h1 : t.header.length < 2
    · simp [h1]
    · simp only [if_neg h1]
      by_cases h2 : importTriplets t.header = []
      · simp [h2, h1]
      · simp only [if_neg h2]
        split <;> simp [h1]
  · unfold import_wide_csv
    by_cases h1 : t.header.length < 2
    · simp only [if_pos h1]
      constructor
      · intro h
        simp at h
      · rintro ⟨hc, -⟩
        omega
    · simp only [if_neg h1]
      by_cases h2 : importTriplets t.header = []
      · simp only [if_pos h2]
        simp [h2]
        omega
      · simp only [if_neg h2]
        split <;> simp [h2]
  · intro w hw
    unfold coerce_float
    by_cases hs : cleanNum w = "" <;> simp [hs, hw]

/-- Witness for C6 (third conjunct has a hypothesis): the text `"abc"`
does not parse, and coerces to `none`. -/
theorem import_failure_policy_witness :
    coerce_float (some (.str "abc")) = none :=
  (import_failure_policy ⟨["Empty"], []⟩).2.2 (.str "abc") (by decide)

/-! ## Claim C4: section-header classification -/

/-- Shorthand for a missing CSV field (pandas `NaN`). -/
def nanCell : Option CsvVal := some (.num .nan)

/-- Shorthand for a text CSV field. -/
def strCell (v : String) : Option CsvVal := some (.str v)

/-- Header of the four-column example table. -/
def hdrT4 : List String := ["Label", "Day 1", "Time (hours)", "Labor (workers)"]

/-- A record with every field blank. -/
def blankRec : List (Option CsvVal) := [nanCell, nanCell, nanCell, nanCell]

/-- Example table: a canonical section header, then an all-blank record. -/
def T4 : CsvTable := ⟨hdrT4, [[strCell "Outside", nanCell, nanCell, nanCell], blankRec]⟩

/-- C4 counterexample: the claim classifies a row as a header only when
the label is non-empty, so the all-blank record of `T4` (null label,
empty triplets, with `current_section = "Outside"` active) should be a
data row producing `Row{section="Outside", subsection=""}`; the importer
instead treats it as a header — the label is not consulted — and
produces no row at all. -/
theorem header_label_counterexample :
    labelOf blankRec = none ∧
    rowHasAnyTripletValues (importTriplets hdrT4) blankRec = false ∧
    import_wide_csv T4 = .ok [] := by
  refine ⟨rfl, rfl, rfl⟩

/-- C4 amended: a record is treated as a section header iff every
detected triplet column is empty/null, *regardless of the label*; a
header record creates no row and updates `current_section` only when
the label normalizes to a canonical section (otherwise the section is
left unchanged); a non-header record creates a row exactly when a
section is current. -/
theorem header_classification (ts : List ImpTriplet) (st : ImportSt)
    (r : List (Option CsvVal)) :
    (rowHasAnyTripletValues ts r = false →
      (stepRow ts st r).acc = st.acc ∧
      (stepRow ts st r).row_order = st.row_order ∧
      (stepRow ts st r).current_section =
        (match normalize_section ((labelOf r).getD "") with
         | some canon => some canon
         | none => st.current_section)) ∧
    (rowHasAnyTripletValues ts r = true →
      (stepRow ts st r).current_section = st.current_section ∧
      (st.current_section = none → stepRow ts st r = st) ∧
      (∀ sec, st.current_section = some sec →
        (stepRow ts st r).acc =
          st.acc ++ [⟨sec, (labelOf r).getD "", st.row_order + 1,
                      ts.filterMap (processTriplet r)⟩])) := by
  constructor
  · intro h
    unfold stepRow
    rw [if_pos h]
    cases hn : normalize_section ((labelOf r).getD "") <;> simp [hn]
  · intro h
    unfold stepRow
    rw [if_neg (by simp [h])]
    refine ⟨?_, ?_, ?_⟩
    · cases hc : st.current_section <;> simp [hc]
    · intro hc
      rw [hc]
    · intro sec2 hsec2
      rw [hsec2]

/-- Witness for C4 amended, applied to the all-blank record under an
active section: no row is created and the section is unchanged. -/
theorem header_classification_witness :
    (stepRow (importTriplets hdrT4) ⟨some "Outside", 0, []⟩ blankRec).acc = [] ∧
    (stepRow (importTriplets hdrT4) ⟨some "Outside", 0, []⟩ blankRec).current_section
      = some "Outside" := by
  obtain ⟨ha, -, hs⟩ :=
    (header_classification (importTriplets hdrT4) ⟨some "Outside", 0, []⟩ blankRec).1
      (by decide)
  refine ⟨ha, ?_⟩
  rw [hs]
  rfl


/-! ## Claim C5: purely positional triplet detection -/

theorem detectGo_spec : ∀ (rest : List String) (i : Nat) (all : List String),
    (∀ j, j < rest.length → all.get? (i + j) = rest.get? j) →
    detectGo all i rest = (List.range' i rest.length).filterMap
      (fun k => (dayPatMatch (all.getD k "")).map
        (fun n => ⟨all.getD k "", all.get? (k + 1), all.get? (k + 2), n, k⟩)) := by
  intro rest
  induction rest with
  | nil => intro i all _; rfl
  | cons c tl ih =>
    intro i all h
    have h0 : all.get? i = some c := by
      have := h 0 (by simp)
      simpa using this
    have hgd : all.getD i "" = c := by
      simp [List.getD_eq_getElem?_getD, ← List.get?_eq_getElem?, h0]
    have hshift : ∀ j, j < tl.length → all.get? (i + 1 + j) = tl.get? j := by
      intro j hj
      have := h (j + 1) (by simp; omega)
      rw [show i + (j + 1) = i + 1 + j by omega] at this
      simpa using this
    simp only [List.length_cons]
    rw [List.range'_succ, List.filterMap_cons]
    cases hm : dayPatMatch c with
    | none =>
      simp only [detectGo, hm, hgd]
      exact ih (i + 1) all hshift
    | some n =>
      simp only [detectGo, hm, hgd]
      rw [ih (i + 1) all hshift]
      simp

/-- C5: `detect_day_triplets` is purely positional — it emits one tuple
per column matching `Day\s*<digits>` (after trimming,
case-insensitively), pairing it with the columns at `i+1` and `i+2`
(`none` when out of range); on the duplicate-named example header it
yields exactly the two triplets for days 1 and 2. -/
theorem detector_positional (cols : List String) :
    detect_day_triplets cols = (List.range cols.length).filterMap
      (fun k => (dayPatMatch (cols.getD k "")).map
        (fun n => ⟨cols.getD k "", cols.get? (k + 1), cols.get? (k + 2), n, k⟩)) ∧
    detect_day_triplets
      ["Label", "Day 1", "Time (hours)", "Labor (workers)",
       "Day 2", "Time (hours)", "Labor (workers)"]
      = [⟨"Day 1", some "Time (hours)", some "Labor (workers)", 1, 1⟩,
         ⟨"Day 2", some "Time (hours)", some "Labor (workers)", 2, 4⟩] := by
  constructor
  · rw [detect_day_triplets, List.range_eq_range']
    exact detectGo_spec cols 0 cols (by intro j hj; simp)
  · rfl

/-! ## Claim C3: swap_row_order -/

/-- Two rows living in two different sheets. -/
def crossSheetRows : List DbRow :=
  [⟨1, 1, "Outside", "x", 1⟩, ⟨2, 2, "Roof", "y", 5⟩]

/-- C3 counterexample: `swap_row_order` on two rows from *different*
sheets is not a no-op — the source checks only that both ids exist and
swaps unconditionally. -/
theorem swap_cross_sheet_counterexample :
    (crossSheetRows.getD 0 ⟨0, 0, "", "", 0⟩).sheet_id ≠
      (crossSheetRows.getD 1 ⟨0, 0, "", "", 0⟩).sheet_id ∧
    swap_row_order crossSheetRows 1 2 =
      [⟨1, 1, "Outside", "x", 5⟩, ⟨2, 2, "Roof", "y", 1⟩] ∧
    swap_row_order crossSheetRows 1 2 ≠ crossSheetRows := by
  refine ⟨by decide, rfl, by decide⟩

/-- C3 amended: `swap_row_order(a, b)` is a no-op when either row id is
missing; when both exist it exchanges exactly the two rows' `row_order`
values (leaving every other row unchanged) — *regardless of which sheets
the rows belong to*. -/
theorem swap_row_order_spec (rows : List DbRow) (a b : Nat) :
    ((findRow rows a = none ∨ findRow rows b = none) →
      swap_row_order rows a b = rows) ∧
    (∀ ra rb, findRow rows a = some ra → findRow rows b = some rb →
      swap_row_order rows a b = rows.map (fun r =>
        if r.id = b then { r with row_order := ra.row_order }
        else if r.id = a then { r with row_order := rb.row_order }
        else r)) := by
  constructor
  · intro h
    unfold swap_row_order
    rcases h with h | h
    · rw [h]
    · cases hfa : findRow rows a
      · rfl
      · rw [h]
  · intro ra rb hfa hfb
    unfold swap_row_order
    rw [hfa, hfb]
    dsimp only
    rw [List.map_map]
    apply List.map_congr_left
    intro r _
    cases r with
    | mk rid rsheet rsect rsub rord =>
      by_cases hA : rid = a
      · by_cases hB : rid = b
        · subst hA
          subst hB
          simp
        · subst hA
          simp [hB]
      · by_cases hB : rid = b
        · subst hB
          simp [hA]
        · simp [hA, hB]

/-- Witness for C3 amended: both rows found (same sheet), orders 1 and 2
are exchanged. -/
theorem swap_row_order_spec_witness :
    swap_row_order [⟨1, 1, "Outside", "x", 1⟩, ⟨2, 1, "Outside", "y", 2⟩] 1 2 =
      [⟨1, 1, "Outside", "x", 2⟩, ⟨2, 1, "Outside", "y", 1⟩] := by
  rw [(swap_row_order_spec [⟨1, 1, "Outside", "x", 1⟩, ⟨2, 1, "Outside", "y", 2⟩] 1 2).2
    ⟨1, 1, "Outside", "x", 1⟩ ⟨2, 1, "Outside", "y", 2⟩ (by decide) (by decide)]
  decide

/-! ## Claim C9: upsert null semantics -/

theorem find_map_update (cells : List DbCell) (p : DbCell → Bool) (f : DbCell → DbCell)
    (hp : ∀ c, p c = true → p (f c) = true) :
    (cells.map (fun c => if p c then f c else c)).find? p = (cells.find? p).map f := by
  induction cells with
  | nil => rfl
  | cons c cs ih =>
    by_cases hc : p c = true
    · simp [List.find?, hc, hp c hc]
    · have hcb : p c = false := by simpa using hc
      simp [List.find?, hcb, ih]

theorem findCell_upsert_self (cells : List DbCell) (rid : Nat) (d : Int)
    (task : Option String) (hours : Option PyFloat) (labor : Option String) :
    findCell (upsert_cell cells rid d task hours labor) rid d
      = some ⟨rid, d, task, hours, labor⟩ := by
  unfold upsert_cell findCell
  by_cases h : cells.any (fun c => c.row_id = rid && c.day = d)
  · rw [if_pos h]
    rw [find_map_update cells _ _ (fun c hc => by
      obtain ⟨h1, h2⟩ : c.row_id = rid ∧ c.day = d := by simpa using hc
      simp [h1, h2])]
    cases hfind : cells.find? (fun c => c.row_id = rid && c.day = d) with
    | none =>
      rw [List.find?_eq_none] at hfind
      rcases List.any_eq_true.mp h with ⟨x, hx, hpx⟩
      exact absurd hpx (hfind x hx)
    | some c0 =>
      obtain ⟨h1, h2⟩ : c0.row_id = rid ∧ c0.day = d := by
        simpa using List.find?_some hfind
      cases c0 with
      | mk w x y z u =>
        simp only at h1 h2
        subst h1
        subst h2
        rfl
  · rw [if_neg h]
    rw [List.find?_append]
    have hnone : cells.find? (fun c => c.row_id = rid && c.day = d) = none := by
      rw [List.find?_eq_none]
      intro x hx hpx
      exact h (List.any_eq_true.mpr ⟨x, hx, hpx⟩)
    rw [hnone]
    simp [List.find?]

theorem find_map_update_other (cells : List DbCell) (p q : DbCell → Bool)
    (f : DbCell → DbCell) (hq : ∀ c, q (f c) = q c)
    (hpq : ∀ c, p c = true → q c = false) :
    (cells.map (fun c => if p c then f c else c)).find? q = cells.find? q := by
  induction cells with
  | nil => rfl
  | cons c cs ih =>
    by_cases hc : p c = true
    · have hqc : q c = false := hpq c hc
      have hqf : q (f c) = false := by rw [hq c]; exact hqc
      simp [List.find?, hc, hqf, hqc, ih]
    · simp only [List.map_cons, if_neg hc, List.find?]
      cases hp2 : q c with
      | true => rfl
      | false => exact ih

theorem findCell_upsert_other (cells : List DbCell) (rid : Nat) (d : Int)
    (task : Option String) (hours : Option PyFloat) (labor : Option String)
    (rid2 : Nat) (d2 : Int) (hne : ¬(rid2 = rid ∧ d2 = d)) :
    findCell (upsert_cell cells rid d task hours labor) rid2 d2
      = findCell cells rid2 d2 := by
  unfold upsert_cell findCell
  by_cases h : cells.any (fun c => c.row_id = rid && c.day = d)
  · rw [if_pos h]
    apply find_map_update_other
    · intro c
      cases c
      rfl
    · intro c hc
      obtain ⟨h1, h2⟩ : c.row_id = rid ∧ c.day = d := by simpa using hc
      by_cases e1 : c.row_id = rid2
      · by_cases e2 : c.day = d2
        · exact absurd ⟨e1.symm.trans h1, e2.symm.trans h2⟩ hne
        · simp [e2]
      · simp [e1]
  · rw [if_neg h]
    rw [List.find?_append]
    have hnew : ((⟨rid, d, task, hours, labor⟩ : DbCell).row_id = rid2 &&
        (⟨rid, d, task, hours, labor⟩ : DbCell).day = d2) = false := by
      by_cases e1 : rid = rid2
      · by_cases e2 : d = d2
        · exact absurd ⟨e1.symm, e2.symm⟩ hne
        · simp [e2]
      · simp [e1]
    rw [show List.find? (fun c => c.row_id = rid2 && c.day = d2)
        [(⟨rid, d, task, hours, labor⟩ : DbCell)] = none from by simp [List.find?, hnew]]
    exact Option.or_none

theorem findCell_foldl_frame (l : List DbCell) :
    ∀ (cs : List DbCell) (rid : Nat) (d : Int),
    (∀ x ∈ l, ¬(rid = x.row_id ∧ d = x.day)) →
    findCell (l.foldl
        (fun cs r => upsert_cell cs r.row_id r.day r.task r.hours r.labor_code) cs) rid d
      = findCell cs rid d := by
  induction l with
  | nil => intro cs rid d _; rfl
  | cons r rs ih =>
    intro cs rid d hfree
    rw [List.foldl_cons, ih _ rid d (fun x hx => hfree x (by simp [hx]))]
    exact findCell_upsert_other cs r.row_id r.day r.task r.hours r.labor_code rid d
      (hfree r (by simp))

theorem bulk_fold_lookup (cells : List DbCell) (recs : List DbCell)
    (hnod : (recs.map (fun r => (r.row_id, r.day))).Nodup) (rec : DbCell)
    (hmem : rec ∈ recs) :
    findCell (recs.foldl
        (fun cs r => upsert_cell cs r.row_id r.day r.task r.hours r.labor_code) cells)
      rec.row_id rec.day = some rec := by
  induction recs generalizing cells with
  | nil => cases hmem
  | cons r rs ih =>
    have hnod2 : ((r.row_id, r.day) :: rs.map (fun x => (x.row_id, x.day))).Nodup := by
      simpa only [List.map_cons] using hnod
    rw [List.foldl_cons]
    rcases List.mem_cons.mp hmem with he | hm
    · subst he
      have hnd := (List.nodup_cons.mp hnod2).1
      have hfree : ∀ x ∈ rs, ¬(rec.row_id = x.row_id ∧ rec.day = x.day) := by
        intro x hx hcon
        refine hnd (List.mem_map.mpr ⟨x, hx, ?_⟩)
        rw [hcon.1, hcon.2]
      rw [findCell_foldl_frame rs _ rec.row_id rec.day hfree]
      rw [findCell_upsert_self cells rec.row_id rec.day rec.task rec.hours rec.labor_code]
    · exact ih _ ((List.nodup_cons.mp hnod2).2) hm

/-- C9: `upsert_cell` always writes all three data fields: the stored
cell at `(row_id, day)` afterwards carries exactly the given
(possibly null) task/hours/labor — a null argument nulls the stored
field rather than keeping the old value — while every other key is
untouched; and a `bulk_upsert_cells` batch (with its per-statement
distinct keys) leaves each record readable back verbatim. -/
theorem upsert_writes_all_fields (cells : List DbCell) (rid : Nat) (d : Int)
    (task : Option String) (hours : Option PyFloat) (labor : Option String) :
    findCell (upsert_cell cells rid d task hours labor) rid d
      = some ⟨rid, d, task, hours, labor⟩ ∧
    (∀ rid2 d2, ¬(rid2 = rid ∧ d2 = d) →
      findCell (upsert_cell cells rid d task hours labor) rid2 d2
        = findCell cells rid2 d2) ∧
    (∀ recs out rec, bulk_upsert_cells cells recs = some out → rec ∈ recs →
      findCell out rec.row_id rec.day = some rec) := by
  refine ⟨findCell_upsert_self cells rid d task hours labor,
    fun rid2 d2 hne => findCell_upsert_other cells rid d task hours labor rid2 d2 hne,
    ?_⟩
  intro recs out rec hbulk hmem
  unfold bulk_upsert_cells at hbulk
  by_cases hnod : (recs.map (fun r => (r.row_id, r.day))).Nodup
  · rw [if_pos hnod] at hbulk
    cases hbulk
    exact bulk_fold_lookup cells recs hnod rec hmem
  · rw [if_neg hnod] at hbulk
    cases hbulk

/-- Witness for C9: overwriting an existing cell with three nulls stores
nulls (not the old values), and an unrelated key is untouched. -/
theorem upsert_writes_all_fields_witness :
    findCell (upsert_cell [⟨5, 3, some "T", some (.fin 2), some "1.00"⟩] 5 3 none none none)
      5 3 = some ⟨5, 3, none, none, none⟩ ∧
    findCell (upsert_cell [⟨5, 3, some "T", some (.fin 2), some "1.00"⟩] 5 3 none none none)
      9 3 = findCell [⟨5, 3, some "T", some (.fin 2), some "1.00"⟩] 9 3 := by
  refine ⟨(upsert_writes_all_fields _ 5 3 none none none).1, ?_⟩
  exact (upsert_writes_all_fields _ 5 3 none none none).2.1 9 3 (by decide)

/-! ## Claim C2: exporter output layout -/

/-- A two-section sheet (sections deliberately out of alphabetical
order in storage). -/
def sheetC2 : List NRow :=
  [⟨"Roof", "Beams", 1, [⟨1, some "Cut", none, none⟩]⟩,
   ⟨"Outside", "Dig", 2, [⟨1, none, some (.fin 2), none⟩]⟩]

/-- C2 (code bug, evaluated at the failing input): the export of the
two-section sheet does sort rows by section name (`"Outside"` before
`"Roof"`), but emits *only* the two data rows — no synthetic
section-header row precedes either group; the label column carries the
subsection, and the section names appear nowhere in the output. -/
theorem export_no_section_headers :
    export_wide_csv sheetC2 =
      ⟨["Section/Subsection", "Day 1", "Time (hours)", "Labor (workers)"],
       [[some (.str "Dig"), none, some (.num (.fin 2)), none],
        [some (.str "Beams"), some (.str "Cut"), none, none]]⟩ := rfl

/-! ## Claim C1: export/import round trip -/

/-- A one-row sheet with cells on days 1 and 2. -/
def sheetC1 : List NRow :=
  [⟨"Outside", "Foundation", 1,
    [⟨1, some "Pour", some (.fin 8), some "4.02"⟩, ⟨2, none, some (.fin 5), none⟩]⟩]

/-- C1 (code bug, evaluated at the failing input): importing the
serialized export of `sheetC1` yields a sheet with *zero* rows — the
export contains no section-header rows, so the importer never
establishes a `current_section` and skips every record — hence the
round trip reproduces none of the original
`(section, subsection, day, task, hours, labor_code)` tuples. -/
theorem roundtrip_failure :
    import_wide_csv (csvWriteRead (export_wide_csv sheetC1)) = .ok [] ∧
    sheetTuples ([] : List NRow) ≠ sheetTuples sheetC1 := by
  refine ⟨rfl, by decide⟩

end CApp
